import Mathlib

/-!
Verification development for the NHS medicine scraper (src/scraper.ts).

The TypeScript source is shallowly embedded: every JS string rewrite
(the regex chains of cleanText, smartCleanText and enhanceGrammar) is
modelled as an executable function on lists of characters that follows
the left-to-right global-replace semantics of String.prototype.replace;
the Semaphore, the catalog builder, the section-link classifier, the
per-section extraction with its catch handlers, and the aggregation
loop of scrape are modelled as pure functions and folds.  Browser and
network effects (page.goto, page.evaluate, DOM queries) are the external
document provider: a fetch is a value of an Except type, and the DOM
nodes a page evaluation visits are given as explicit lists.
-/

namespace NHSScraper

/-- The empty string. -/
def emptyStr : String := ""

/-- JS regex class for a lowercase ASCII letter, the class written a-z. -/
def isLowerAlpha (c : Char) : Bool := decide (97 ≤ c.toNat ∧ c.toNat ≤ 122)

/-- JS regex class for an uppercase ASCII letter, the class written A-Z. -/
def isUpperAlpha (c : Char) : Bool := decide (65 ≤ c.toNat ∧ c.toNat ≤ 90)

/-- JS regex class for an ASCII digit. -/
def isDigitCh (c : Char) : Bool := decide (48 ≤ c.toNat ∧ c.toNat ≤ 57)

/-- JS whitespace class backslash-s restricted to the characters the pipeline
can actually meet: space, tab, LF, VT, FF, CR and the non-breaking space. -/
def isWSCh (c : Char) : Bool :=
  decide (c.toNat = 32 ∨ c.toNat = 9 ∨ c.toNat = 10 ∨ c.toNat = 11 ∨
    c.toNat = 12 ∨ c.toNat = 13 ∨ c.toNat = 160)

/-- The sentence punctuation class of the cleaning chains: period, bang,
question mark, colon. -/
def isSentPunct (c : Char) : Bool :=
  decide (c.toNat = 46 ∨ c.toNat = 33 ∨ c.toNat = 63 ∨ c.toNat = 58)

/-- JS word character (for word boundaries): letters, digits, underscore. -/
def isWordCh (c : Char) : Bool :=
  isLowerAlpha c || isUpperAlpha c || isDigitCh c || decide (c.toNat = 95)

/-- ASCII lowercase of one character, as toLowerCase acts on this content. -/
def toLowerCh (c : Char) : Char :=
  if isUpperAlpha c then Char.ofNat (c.toNat + 32) else c

/-- ASCII lowercase of a character list. -/
def toLowerL (l : List Char) : List Char := l.map toLowerCh

/-- Does the second list start with the first one? -/
def startsWithL : List Char → List Char → Bool
  | [], _ => true
  | _ :: _, [] => false
  | p :: ps, c :: cs => p == c && startsWithL ps cs

/-- Does the second list contain the first one as a contiguous run?
This is the semantics of the JS includes test on strings. -/
def containsL (pat : List Char) : List Char → Bool
  | [] => startsWithL pat []
  | c :: cs => startsWithL pat (c :: cs) || containsL pat cs

/-- Index of the first occurrence of a pattern, the JS indexOf. -/
def idxOfL (pat : List Char) : List Char → Option Nat
  | [] => if startsWithL pat [] then some 0 else none
  | c :: cs =>
    if startsWithL pat (c :: cs) then some 0 else (idxOfL pat cs).map (· + 1)

/-- Maximal run of lowercase letters at the front, with the remainder. -/
def lowerRun : List Char → List Char × List Char
  | [] => ([], [])
  | c :: cs =>
    if isLowerAlpha c then
      let p := lowerRun cs
      (c :: p.1, p.2)
    else ([], c :: cs)

/-- Maximal run of whitespace at the front, with the remainder. -/
def wsRun : List Char → List Char × List Char
  | [] => ([], [])
  | c :: cs =>
    if isWSCh c then
      let p := wsRun cs
      (c :: p.1, p.2)
    else ([], c :: cs)

/-- JS replace of every maximal whitespace run by one ordinary space. -/
def collapseWSL : List Char → List Char
  | [] => []
  | [c] => [if isWSCh c then ' ' else c]
  | c1 :: c2 :: rest =>
    if isWSCh c1 && isWSCh c2 then collapseWSL (c2 :: rest)
    else (if isWSCh c1 then ' ' else c1) :: collapseWSL (c2 :: rest)

/-- Drop leading whitespace. -/
def trimStartL (l : List Char) : List Char := l.dropWhile (fun c => isWSCh c)

/-- Drop trailing whitespace. -/
def trimEndL : List Char → List Char
  | [] => []
  | c :: cs =>
    match trimEndL cs with
    | [] => if isWSCh c then [] else [c]
    | r => c :: r

/-- JS trim: drop whitespace on both ends. -/
def trimL (l : List Char) : List Char := trimEndL (trimStartL l)

/-- One global-replace step of a two-character-class insertion rule such as
the lowercase-then-uppercase rule: a space is inserted between two adjacent
characters of the two classes, both characters are consumed (the regex match
covers both), and scanning continues after them. -/
def insertBetween (p q : Char → Bool) : List Char → List Char
  | [] => []
  | [c] => [c]
  | c1 :: c2 :: rest =>
    if p c1 && q c2 then c1 :: ' ' :: c2 :: insertBetween p q rest
    else c1 :: insertBetween p q (c2 :: rest)

/-- Fuel-driven global literal replace, the JS replace with a literal
pattern and the g flag: leftmost match, continue after the match. -/
def replaceAllAux (pat repl : List Char) : Nat → List Char → List Char
  | 0, s => s
  | _ + 1, [] => []
  | fuel + 1, c :: cs =>
    if startsWithL pat (c :: cs) && decide (pat ≠ []) then
      repl ++ replaceAllAux pat repl fuel (List.drop (pat.length - 1) cs)
    else c :: replaceAllAux pat repl fuel cs

/-- Global literal replace with fuel set to the input length. -/
def replaceAllL (pat repl s : List Char) : List Char :=
  replaceAllAux pat repl s.length s

/-- Replace only the first occurrence, the JS replace without the g flag. -/
def replaceOnceL (pat repl : List Char) : List Char → List Char
  | [] => []
  | c :: cs =>
    if startsWithL pat (c :: cs) && decide (pat ≠ []) then
      repl ++ List.drop (pat.length - 1) cs
    else c :: replaceOnceL pat repl cs

/-- Replace every non-breaking space by an ordinary space. -/
def nbspFix (l : List Char) : List Char :=
  l.map (fun c => if c.toNat = 160 then ' ' else c)

/-- Replace every en dash by a space. -/
def enDashFix (l : List Char) : List Char :=
  l.map (fun c => if c.toNat = 8211 then ' ' else c)

/-- Replace every em dash by a space. -/
def emDashFix (l : List Char) : List Char :=
  l.map (fun c => if c.toNat = 8212 then ' ' else c)

/-- The colon character test used by the colon-then-lowercase rule. -/
def isColon (c : Char) : Bool := decide (c.toNat = 58)

/-- The curated lead words of the in-page concatenation heuristic. -/
def commonLeadWords : List String :=
  ["cold", "genital", "eye", "skin", "oral", "nasal", "ear", "hand",
   "foot", "back", "chest", "head", "neck", "arm", "leg"]

/-- The in-page concatenated-word rule: one lowercase letter followed by a
lowercase run of length at least three matches; the callback inserts a space
when the run has length at least four and starts with a curated lead word
(the lowercase test of the callback on the first run character is always
true since the run is lowercase).  Scanning continues after the run. -/
def leadSplitAux : Nat → List Char → List Char
  | 0, s => s
  | _ + 1, [] => []
  | fuel + 1, c :: cs =>
    if isLowerAlpha c then
      let p := lowerRun cs
      if decide (3 ≤ p.1.length) then
        if decide (4 ≤ p.1.length) &&
            commonLeadWords.any (fun w => startsWithL w.data (toLowerL p.1)) then
          c :: ' ' :: (p.1 ++ leadSplitAux fuel p.2)
        else c :: (p.1 ++ leadSplitAux fuel p.2)
      else c :: leadSplitAux fuel cs
    else c :: leadSplitAux fuel cs

/-- Lead-word split with fuel set to the input length. -/
def leadSplitL (l : List Char) : List Char := leadSplitAux l.length l

/-- The dictionary-guided rule of smartCleanText: one lowercase letter
followed by a lowercase run of length at least three matches; the callback
inserts a space exactly when the whole run is a dictionary entry.
Scanning continues after the run. -/
def dictSplitAux (dict : List String) : Nat → List Char → List Char
  | 0, s => s
  | _ + 1, [] => []
  | fuel + 1, c :: cs =>
    if isLowerAlpha c then
      let p := lowerRun cs
      if decide (3 ≤ p.1.length) then
        if dict.contains (String.mk (toLowerL p.1)) then
          c :: ' ' :: (p.1 ++ dictSplitAux dict fuel p.2)
        else c :: (p.1 ++ dictSplitAux dict fuel p.2)
      else c :: dictSplitAux dict fuel cs
    else c :: dictSplitAux dict fuel cs

/-- Dictionary split with fuel set to the input length. -/
def dictSplitL (dict : List String) (l : List Char) : List Char :=
  dictSplitAux dict l.length l

/-- The hand-curated literal substring fixes of the in-page cleaning chain,
in source order; the last pair is the identity rewrite present verbatim in
the source. -/
def literalFixes : List (String × String) :=
  [("cold soresgenital herpeseye infections",
    "cold sores genital herpes eye infections"),
   ("cold soresgenital herpes", "cold sores genital herpes"),
   ("genital herpeseye infections", "genital herpes eye infections"),
   ("medicinehave", "medicine have"),
   ("y ears", "years"),
   ("oldare", "old are"),
   ("problemsare", "problems are"),
   ("breastfeeding.", "breastfeeding.")]

/-- Apply the literal fixes in order. -/
def applyLiteralFixes (l : List Char) : List Char :=
  literalFixes.foldl (fun acc pr => replaceAllL pr.1.data pr.2.data acc) l

/-- The cleanText chain evaluated inside every page: dash and non-breaking
space normalization, the five boundary-insertion rules, the lead-word split,
the literal fixes, the colon rule applied twice, whitespace collapse, trim.
The order is exactly the source order. -/
def cleanTextChain (s : String) : String :=
  let r0 := nbspFix s.data
  let r1 := enDashFix r0
  let r2 := emDashFix r1
  let r3 := insertBetween isSentPunct isUpperAlpha r2
  let r4 := insertBetween isLowerAlpha isUpperAlpha r3
  let r5 := insertBetween isLowerAlpha isDigitCh r4
  let r6 := insertBetween isDigitCh isUpperAlpha r5
  let r7 := leadSplitL r6
  let r8 := applyLiteralFixes r7
  let r9 := insertBetween isColon isLowerAlpha r8
  let r10 := insertBetween isColon isLowerAlpha r9
  String.mk (trimL (collapseWSL r10))

/-- The in-page cleanText as a partial function: a missing or empty input
(falsy in JS) gives undefined, everything else goes through the chain. -/
def cleanTextOpt (t : Option String) : Option String :=
  match t with
  | none => none
  | some s => if s = "" then none else some (cleanTextChain s)

/-- The built-in fallback vocabulary of loadWordList, used when the external
word list file is unavailable (it is not part of the repository snapshot).
Duplicated entries of the source literal are kept; set membership and list
membership agree. -/
def fallbackWordList : List String :=
  ["about", "above", "after", "again", "along", "among", "around", "before",
   "below", "between", "during", "except", "inside", "outside", "through",
   "under", "within", "without",
   "could", "would", "should", "might", "shall", "ought", "cannot",
   "don\x27t", "won\x27t", "can\x27t", "isn\x27t", "aren\x27t", "wasn\x27t",
   "weren\x27t", "hasn\x27t", "haven\x27t", "hadn\x27t", "doesn\x27t",
   "didn\x27t",
   "years", "months", "weeks", "days", "hours", "minutes", "seconds",
   "times", "places", "things", "people", "children", "women", "men",
   "adults", "patients", "doctors", "nurses",
   "medicine", "medicines", "tablets", "tablet", "liquid", "cream",
   "ointment", "injection", "injections", "drops", "spray", "sprays",
   "capsules", "capsule",
   "problems", "problem", "issues", "issue", "conditions", "condition",
   "diseases", "disease", "symptoms", "symptom", "effects", "effect",
   "reactions", "reaction",
   "pregnant", "pregnancy", "breastfeeding", "breastfeed", "fertility",
   "fertile", "conception", "contraception", "contraceptive",
   "contraceptives",
   "allergic", "allergy", "allergies", "sensitive", "sensitivity",
   "intolerance", "intolerant", "reaction", "reactions",
   "kidney", "liver", "heart", "lung", "lungs", "brain", "blood", "skin",
   "bone", "bones", "muscle", "muscles", "joint", "joints", "transplant",
   "transplants"]

/-- smartCleanText: empty input is returned as is (falsy guard); otherwise
normalization, the five boundary rules, the colon rule, the dictionary
split, whitespace collapse and trim, in exactly the source order. -/
def smartCleanText (dict : List String) (s : String) : String :=
  if s = "" then s
  else
    let r0 := nbspFix s.data
    let r1 := emDashFix (enDashFix r0)
    let r2 := insertBetween isSentPunct isUpperAlpha r1
    let r3 := insertBetween isLowerAlpha isUpperAlpha r2
    let r4 := insertBetween isLowerAlpha isDigitCh r3
    let r5 := insertBetween isDigitCh isUpperAlpha r4
    let r6 := insertBetween isColon isLowerAlpha r5
    let r7 := dictSplitL dict r6
    String.mk (trimL (collapseWSL r7))

/-- Does any character of the list equal a period or a colon?  This is the
includes guard of the period-insertion callback, evaluated on the match. -/
def hasDotColon (l : List Char) : Bool :=
  l.any (fun c => decide (c.toNat = 46) || decide (c.toNat = 58))

/-- The period-insertion rule of enhanceGrammar: one lowercase letter,
whitespace, then an uppercase letter followed by a lowercase letter.  The
callback keeps the match when it contains a period or colon (it never can,
the guard is modelled anyway) and otherwise rewrites the whitespace to a
period and one space.  Scanning continues after the match. -/
def periodRuleAux : Nat → List Char → List Char
  | 0, s => s
  | _ + 1, [] => []
  | fuel + 1, c :: cs =>
    if isLowerAlpha c then
      let p := wsRun cs
      match p.1, p.2 with
      | _ :: _, u :: l :: rest2 =>
        if isUpperAlpha u && isLowerAlpha l then
          if hasDotColon (c :: (p.1 ++ [u, l])) then
            (c :: (p.1 ++ [u, l])) ++ periodRuleAux fuel rest2
          else c :: '.' :: ' ' :: u :: l :: periodRuleAux fuel rest2
        else c :: periodRuleAux fuel cs
      | _, _ => c :: periodRuleAux fuel cs
    else c :: periodRuleAux fuel cs

/-- The conjunctive adverbs of the comma rule, in the alternation order of
the source regex (no word is a prefix of another, so trying them in order is
the JS alternation semantics). -/
def conjWords : List String := ["but", "however", "therefore", "moreover", "furthermore"]

/-- Try each word of a list as a literal prefix, returning the word data and
the remainder after it. -/
def tryWords : List String → List Char → Option (List Char × List Char)
  | [], _ => none
  | w :: ws, l =>
    if startsWithL w.data l then some (w.data, List.drop w.data.length l)
    else tryWords ws l

/-- The comma rule of enhanceGrammar: lowercase letter, whitespace, one of
the conjunctive adverbs, whitespace, lowercase letter; rewritten to insert a
comma after the first letter and a single space on each side of the word. -/
def commaRuleAux : Nat → List Char → List Char
  | 0, s => s
  | _ + 1, [] => []
  | fuel + 1, c :: cs =>
    if isLowerAlpha c then
      let p := wsRun cs
      match p.1 with
      | [] => c :: commaRuleAux fuel cs
      | _ :: _ =>
        match tryWords conjWords p.2 with
        | none => c :: commaRuleAux fuel cs
        | some (w, rest) =>
          let q := wsRun rest
          match q.1, q.2 with
          | _ :: _, l :: rest2 =>
            if isLowerAlpha l then
              (c :: ',' :: ' ' :: (w ++ (' ' :: [l]))) ++ commaRuleAux fuel rest2
            else c :: commaRuleAux fuel cs
          | _, _ => c :: commaRuleAux fuel cs
    else c :: commaRuleAux fuel cs

/-- A JS word boundary holds before the current position when there is no
previous character or the previous character is not a word character (the
pattern starts with a word character in both contraction rules). -/
def boundaryB (prev : Option Char) : Bool :=
  match prev with
  | none => true
  | some pc => !isWordCh pc

/-- The its-contraction rule: at a word boundary, the literal letters i t s,
whitespace, then a captured lowercase letter; rewritten to an apostrophe
form followed by one space and the letter. -/
def itsRuleAux : Nat → Option Char → List Char → List Char
  | 0, _, s => s
  | _ + 1, _, [] => []
  | fuel + 1, prev, c :: cs =>
    if decide (c.toNat = 105) then
      match cs with
      | t :: s :: rest =>
        if decide (t.toNat = 116) && decide (s.toNat = 115) && boundaryB prev then
          let p := wsRun rest
          match p.1, p.2 with
          | _ :: _, l :: rest2 =>
            if isLowerAlpha l then
              ('i' :: 't' :: Char.ofNat 39 :: 's' :: ' ' :: [l]) ++
                itsRuleAux fuel (some l) rest2
            else c :: itsRuleAux fuel (some c) (t :: s :: rest)
          | _, _ => c :: itsRuleAux fuel (some c) (t :: s :: rest)
        else c :: itsRuleAux fuel (some c) (t :: s :: rest)
      | _ => c :: itsRuleAux fuel (some c) cs
    else c :: itsRuleAux fuel (some c) cs

/-- The auxiliary verbs of the you-contraction callback. -/
def youAuxWords : List String := ["are", "have", "can", "should", "will", "may"]

/-- The you-contraction rule: at a word boundary, the literal letters y o u,
whitespace, then one captured lowercase letter.  The callback replaces, only
when the single captured letter equals one of the auxiliary verbs (it never
does, each verb having several letters; the test is modelled faithfully),
the literal you-space-letter inside the match.  Otherwise it keeps the
match. -/
def youRuleAux : Nat → Option Char → List Char → List Char
  | 0, _, s => s
  | _ + 1, _, [] => []
  | fuel + 1, prev, c :: cs =>
    if decide (c.toNat = 121) then
      match cs with
      | o :: u :: rest =>
        if decide (o.toNat = 111) && decide (u.toNat = 117) && boundaryB prev then
          let p := wsRun rest
          match p.1, p.2 with
          | _ :: _, l :: rest2 =>
            if isLowerAlpha l then
              let m := 'y' :: 'o' :: 'u' :: (p.1 ++ [l])
              let m2 :=
                if youAuxWords.contains (String.mk [l]) then
                  replaceOnceL ('y' :: 'o' :: 'u' :: ' ' :: [l])
                    ('y' :: 'o' :: 'u' :: Char.ofNat 39 :: 'r' :: 'e' :: ' ' :: [l]) m
                else m
              m2 ++ youRuleAux fuel (some l) rest2
            else c :: youRuleAux fuel (some c) (o :: u :: rest)
          | _, _ => c :: youRuleAux fuel (some c) (o :: u :: rest)
        else c :: youRuleAux fuel (some c) (o :: u :: rest)
      | _ => c :: youRuleAux fuel (some c) cs
    else c :: youRuleAux fuel (some c) cs

/-- enhanceGrammar: empty input returned as is, otherwise smartCleanText
followed by the period, comma, its and you rules, a final whitespace
collapse and a trim, in exactly the source order. -/
def enhanceGrammar (dict : List String) (text : String) : String :=
  if text = "" then text
  else
    let cleaned := smartCleanText dict text
    let r1 := periodRuleAux cleaned.data.length cleaned.data
    let r2 := commaRuleAux r1.length r1
    let r3 := itsRuleAux r2.length none r2
    let r4 := youRuleAux r3.length none r3
    String.mk (trimL (collapseWSL r4))

/-! ## Data model (src/types.ts) -/

/-- One extracted paragraph pair, the Section interface of types.ts. -/
structure Section where
  paragraphTitle : String
  paragraphText : String
deriving DecidableEq, Repr

/-- One named sub-section of a medicine, the MedicineSection interface. -/
structure MedicineSection where
  sections : List Section := []
  url : Option String := none
deriving DecidableEq, Repr

/-- One item record, the MedicineInfo interface of types.ts. -/
structure MedicineInfo where
  name : String
  url : String
  dateCaptured : Option String := none
  otherBrandNames : Option String := none
  summary : Option String := none
  about : MedicineSection := {}
  eligibility : MedicineSection := {}
  howAndWhenToTake : MedicineSection := {}
  sideEffects : MedicineSection := {}
  pregnancyBreastFeedingFertility : MedicineSection := {}
  takingWithOther : MedicineSection := {}
  commonQuestions : MedicineSection := {}
  relatedConditions : List String := []
deriving DecidableEq, Repr

/-- The run result document, the ScrapingResult interface of types.ts. -/
structure ScrapingResult where
  totalMedicines : Nat
  scrapedMedicines : Nat
  failedMedicines : List String
  medicines : List MedicineInfo
  scrapedAt : String
deriving DecidableEq, Repr

/-! ## The Semaphore (src/scraper.ts, class Semaphore) -/

/-- The observable state of the Semaphore: the permit counter and the wait
queue of suspended acquirers, identified by task ids in enqueue order. -/
structure SemState where
  permits : Nat
  waitQueue : List Nat
deriving DecidableEq, Repr

/-- acquire: when permits remain, decrement and return immediately (true);
otherwise push the resolver onto the wait queue and suspend (false). -/
def semAcquire (s : SemState) (tid : Nat) : SemState × Bool :=
  if 0 < s.permits then
    ({ permits := s.permits - 1, waitQueue := s.waitQueue }, true)
  else
    ({ permits := s.permits, waitQueue := s.waitQueue ++ [tid] }, false)

/-- release: increment the permit count; when a waiter is queued, shift the
earliest one off the queue, decrement again and resume it. -/
def semRelease (s : SemState) : SemState × Option Nat :=
  let p := s.permits + 1
  match s.waitQueue with
  | [] => ({ permits := p, waitQueue := [] }, none)
  | next :: rest => ({ permits := p - 1, waitQueue := rest }, some next)

/-- One scheduler event: an acquisition attempt by a task, or a release. -/
inductive SemEvent where
  | acq (tid : Nat)
  | rel
deriving DecidableEq, Repr

/-- Trace accumulator for a run of scheduler events: the semaphore state,
the tasks admitted without suspending, the woken waiters in wake order and
the enqueued waiters in enqueue order. -/
structure SemTrace where
  st : SemState
  immediate : List Nat
  woken : List Nat
  enqueued : List Nat
deriving DecidableEq, Repr

/-- One step of the scheduler trace. -/
def semStep (acc : SemTrace) (e : SemEvent) : SemTrace :=
  match e with
  | SemEvent.acq tid =>
    let r := semAcquire acc.st tid
    if r.2 then { acc with st := r.1, immediate := acc.immediate ++ [tid] }
    else { acc with st := r.1, enqueued := acc.enqueued ++ [tid] }
  | SemEvent.rel =>
    let r := semRelease acc.st
    match r.2 with
    | some tid => { acc with st := r.1, woken := acc.woken ++ [tid] }
    | none => { acc with st := r.1 }

/-- Run a sequence of events against a fresh semaphore of capacity k. -/
def semRun (k : Nat) (evs : List SemEvent) : SemTrace :=
  evs.foldl semStep { st := { permits := k, waitQueue := [] },
                      immediate := [], woken := [], enqueued := [] }

/-! ## Progress accounting (src/scraper.ts, scrape, lines 71 to 101) -/

/-- One progress event: the processed counter as read after its increment,
the total, the rounded percentage, and for a success the estimated time
remaining (none for the failure branch, which prints no ETA). -/
structure ProgressEvent where
  processed : Nat
  total : Nat
  percentage : Int
  eta : Option ℚ
deriving DecidableEq, Repr

/-- Math.round: floor of the argument plus one half. -/
def jsRound (q : ℚ) : Int := Int.floor (q + 1 / 2)

/-- The progress events of a run, one per completed task in completion
order: the counter is incremented first (processed is the index plus one),
then for the success branch the average elapsed time per item and the ETA
are computed from the already-incremented counter. -/
def progressEventsFrom (total : Nat) (elapsedAt : Nat → ℚ) : Nat → List Bool → List ProgressEvent
  | _, [] => []
  | j, ok :: rest =>
    let processed := j + 1
    let pct := jsRound ((processed : ℚ) / (total : ℚ) * 100)
    let ev :=
      if ok then
        let avg := elapsedAt j / (processed : ℚ)
        let remaining : ℚ := (total : ℚ) - (processed : ℚ)
        { processed := processed, total := total, percentage := pct,
          eta := some (remaining * avg) : ProgressEvent }
      else
        { processed := processed, total := total, percentage := pct,
          eta := none : ProgressEvent }
    ev :: progressEventsFrom total elapsedAt (j + 1) rest

/-- Progress events starting from a zero counter. -/
def progressEvents (total : Nat) (elapsedAt : Nat → ℚ) (outcomes : List Bool) : List ProgressEvent :=
  progressEventsFrom total elapsedAt 0 outcomes

/-! ## Aggregation (src/scraper.ts, scrape, lines 53 to 119) -/

/-- One catalog entry as consumed by the scraping loop. -/
structure MedLink where
  name : String
  url : String
deriving DecidableEq, Repr

/-- One completed task: a successful item is pushed onto the medicines
list, a failed one pushes its link name onto the failures list. -/
def scrapeStep (outcome : MedLink → Option MedicineInfo)
    (acc : List MedicineInfo × List String) (link : MedLink) :
    List MedicineInfo × List String :=
  match outcome link with
  | some med => (acc.1 ++ [med], acc.2)
  | none => (acc.1, acc.2 ++ [link.name])

/-- The scrape run over a catalog: the processing cap (limit) truncates the
attempted list when positive, every attempted link completes as a success
or a failure, and the result records the full catalog size, the success
count, the failure names and the item records. -/
def runScrape (catalog : List MedLink) (limit : Nat)
    (outcome : MedLink → Option MedicineInfo) (stamp : String) : ScrapingResult :=
  let linksToProcess := if 0 < limit then catalog.take limit else catalog
  let acc := linksToProcess.foldl (scrapeStep outcome) ([], [])
  { totalMedicines := catalog.length,
    scrapedMedicines := acc.1.length,
    failedMedicines := acc.2,
    medicines := acc.1,
    scrapedAt := stamp }

/-! ## Catalog builder (src/scraper.ts, getMedicineLinks, lines 137 to 194) -/

/-- One anchor of the index page: the raw href attribute (none when the
attribute is missing) and the anchor text (none when textContent is null). -/
structure MedAnchor where
  href : Option String := none
  text : Option String := none
deriving DecidableEq, Repr

/-- A resolved URL as produced by the URL constructor of the browser (an
external capability): the absolute href and the pathname. -/
structure Resolved where
  href : String
  pathname : String
deriving DecidableEq, Repr

/-- One catalog entry as built: the normalized name (null when empty) and
the canonical absolute URL. -/
structure LinkEntry where
  name : Option String
  url : String
deriving DecidableEq, Repr

/-- The catalog base path segment. -/
def medicinesSeg : String := "/medicines/"

/-- The isMed filter: the href resolves to a URL whose pathname contains
the base segment with a tail that is nonempty, not a bare slash and not a
fragment. -/
def isMedAnchor (resolve : String → Resolved) (a : MedAnchor) : Bool :=
  match a.href with
  | none => false
  | some h =>
    match idxOfL medicinesSeg.data (resolve h).pathname.data with
    | none => false
    | some idx =>
      let tail := List.drop (idx + medicinesSeg.data.length) (resolve h).pathname.data
      decide (tail ≠ []) && decide (tail ≠ [Char.ofNat 47]) &&
        !startsWithL [Char.ofNat 35] tail

/-- Normalized display name: the anchor text (empty when null), trimmed,
with every inner whitespace run collapsed to one space. -/
def normNameStr (t : Option String) : String :=
  String.mk (collapseWSL (trimL (t.getD emptyStr).data))

/-- The generic index label rejected by the name filter. -/
def indexLabel : String := "Medicines A to Z"

/-- The overview cross-reference marker rejected by the name filter. -/
def overviewMarker : String := "Overview -"

/-- The see cross-reference phrase rejected by the name filter. -/
def seeMarker : String := "see "

/-- The acceptance filter on a normalized name: not the index label, no
overview marker, no see phrase, length strictly between 1 and 100. -/
def isValidMedName (name : String) : Bool :=
  decide (name ≠ indexLabel) &&
    !containsL overviewMarker.data name.data &&
    !containsL seeMarker.data name.data &&
    decide (1 < name.data.length) && decide (name.data.length < 100)

/-- Lookup in the insertion-ordered map, keyed by canonical URL (the JS
Map get; keys are unique, the first binding decides). -/
def lookupEntry : List (String × LinkEntry) → String → Option LinkEntry
  | [], _ => none
  | kv :: rest, url => if kv.1 = url then some kv.2 else lookupEntry rest url

/-- JS Map set: an existing key is updated in place (keeping its
position), a new key is appended at the back. -/
def upsertEntry : List (String × LinkEntry) → String → LinkEntry → List (String × LinkEntry)
  | [], url, e => [(url, e)]
  | kv :: rest, url, e =>
    if kv.1 = url then (url, e) :: rest else kv :: upsertEntry rest url e

/-- Is a stored entry name falsy (null, or the empty string)? -/
def entryNameFalsy (e : LinkEntry) : Bool :=
  match e.name with
  | none => true
  | some s => decide (s = "")

/-- One anchor of the catalog fold: the anchor is stored under its canonical
URL when its name is accepted and either the URL is new or the stored entry
has a falsy name and the new name is nonempty. -/
def medStep (resolve : String → Resolved) (m : List (String × LinkEntry))
    (a : MedAnchor) : List (String × LinkEntry) :=
  match a.href with
  | none => m
  | some h =>
    let url := (resolve h).href
    let name := normNameStr a.text
    let cond := isValidMedName name &&
      (match lookupEntry m url with
       | none => true
       | some e => entryNameFalsy e && decide (name ≠ ""))
    if cond then
      upsertEntry m url { name := if name = "" then none else some name, url := url }
    else m

/-- The catalog builder: filter the anchors with isMed, fold them into the
URL-keyed map, and return the entries in first-encounter order. -/
def getMedicineLinks (resolve : String → Resolved) (anchors : List MedAnchor) :
    List LinkEntry :=
  ((anchors.filter (isMedAnchor resolve)).foldl (medStep resolve) []).map (·.2)

/-! ## Section links (src/scraper.ts, getSectionLinks, lines 350 to 396) -/

/-- The section link map: one optional URL per fixed category. -/
structure SectionLinks where
  about : Option String := none
  whoCanTake : Option String := none
  howAndWhenToTake : Option String := none
  sideEffects : Option String := none
  pregnancy : Option String := none
  interactions : Option String := none
  commonQuestions : Option String := none
deriving DecidableEq, Repr

/-- The empty section link map, the object literal the evaluation starts
from and the value the catch handler returns. -/
def emptySectionLinks : SectionLinks := {}

/-- One anchor of a detail page, as matched by the medicines selector. -/
structure PageAnchor where
  href : Option String := none
  text : Option String := none
deriving DecidableEq, Repr

/-- The site origin prepended to a relative href. -/
def nhsBase : String := "https://www.nhs.uk"

/-- The http scheme test of the absolute-URL branch. -/
def httpPre : String := "http"

/-- The keyword groups of the classifier, one definition per literal. -/
def kwAbout : String := "about"

/-- Keyword of the eligibility group. -/
def kwWhoCan : String := "who can"

/-- Keyword of the eligibility group. -/
def kwCannotTake : String := "cannot take"

/-- Keyword of the dosage group. -/
def kwHowWhen : String := "how and when"

/-- Keyword of the dosage group. -/
def kwHowTake : String := "how to take"

/-- Keyword of the side-effects group. -/
def kwSideEffect : String := "side effect"

/-- Keyword of the pregnancy group. -/
def kwPreg : String := "pregnancy"

/-- Keyword of the pregnancy group. -/
def kwBreast : String := "breastfeeding"

/-- Keyword of the pregnancy group. -/
def kwFert : String := "fertility"

/-- Keyword of the interactions group. -/
def kwTakingWith : String := "taking with"

/-- Keyword of the interactions group. -/
def kwOtherMeds : String := "other medicines"

/-- Keyword of the interactions group. -/
def kwInteraction : String := "interaction"

/-- Keyword of the common-questions group. -/
def kwCommonQ : String := "common question"

/-- One anchor of the classifier: the text is lowercased and trimmed; when
both href and text are truthy the anchor is assigned to the first category
of the fixed chain whose keyword group matches, and that category field is
overwritten with the full URL of this anchor. -/
def classifyStep (m : SectionLinks) (a : PageAnchor) : SectionLinks :=
  match a.href, a.text with
  | some h, some t =>
    let tl := String.mk (trimL (toLowerL t.data))
    if decide (h = "") || decide (tl = "") then m
    else
      let fullUrl := if startsWithL httpPre.data h.data then h else nhsBase ++ h
      if containsL kwAbout.data tl.data then { m with about := some fullUrl }
      else if containsL kwWhoCan.data tl.data || containsL kwCannotTake.data tl.data then
        { m with whoCanTake := some fullUrl }
      else if containsL kwHowWhen.data tl.data || containsL kwHowTake.data tl.data then
        { m with howAndWhenToTake := some fullUrl }
      else if containsL kwSideEffect.data tl.data then
        { m with sideEffects := some fullUrl }
      else if containsL kwPreg.data tl.data || containsL kwBreast.data tl.data ||
          containsL kwFert.data tl.data then
        { m with pregnancy := some fullUrl }
      else if containsL kwTakingWith.data tl.data || containsL kwOtherMeds.data tl.data ||
          containsL kwInteraction.data tl.data then
        { m with interactions := some fullUrl }
      else if containsL kwCommonQ.data tl.data then
        { m with commonQuestions := some fullUrl }
      else m
  | _, _ => m

/-- The in-page evaluation of getSectionLinks over the matched anchors in
document order. -/
def getSectionLinksOk (anchors : List PageAnchor) : SectionLinks :=
  anchors.foldl classifyStep emptySectionLinks

/-- getSectionLinks with its catch handler: a fetch or evaluation failure
yields the empty map rather than aborting the item. -/
def getSectionLinksTotal (fetch : Except Unit (List PageAnchor)) : SectionLinks :=
  match fetch with
  | Except.ok anchors => getSectionLinksOk anchors
  | Except.error _ => emptySectionLinks

/-! ## Per-section extraction (src/scraper.ts, lines 398 to 660) -/

/-- extractSectionContent around its catch handler: a successful fetch and
evaluation yields the extracted paragraph list (the in-page heading walk is
the document-provider evaluation, given here as the payload); any failure
yields an empty paragraph list.  Both outcomes carry the section URL. -/
def extractSectionContent (url : String) (fetch : Except Unit (List Section)) :
    MedicineSection :=
  match fetch with
  | Except.ok secs => { sections := secs, url := some url }
  | Except.error _ => { sections := [], url := some url }

/-- One disclosure widget of a common-questions page: the text content of
the summary node and of the payload node, none when the node is missing
(a present node with null textContent behaves identically, the cleaned
text being undefined either way). -/
structure DetailsEl where
  summaryText : Option String := none
  answerText : Option String := none
deriving DecidableEq, Repr

/-- One disclosure widget of the Q and A evaluation: both nodes must exist,
both cleaned texts must be truthy, the question longer than 5 and the
answer longer than 10. -/
def qaStep (el : DetailsEl) : Option Section :=
  match el.summaryText, el.answerText with
  | some s, some a =>
    match cleanTextOpt (some s), cleanTextOpt (some a) with
    | some q, some b =>
      if decide (q ≠ "") && decide (b ≠ "") &&
          decide (5 < q.data.length) && decide (10 < b.data.length) then
        some { paragraphTitle := q, paragraphText := b }
      else none
    | _, _ => none
  | _, _ => none

/-- extractCommonQuestions around its catch handler. -/
def extractCommonQuestions (url : String) (fetch : Except Unit (List DetailsEl)) :
    MedicineSection :=
  match fetch with
  | Except.ok els => { sections := els.filterMap qaStep, url := some url }
  | Except.error _ => { sections := [], url := some url }

/-- The per-section post-pass of scrapeDetailedSections: every paragraph
body is replaced by its grammar enhancement, titles and URL are spread
through unchanged. -/
def applyGrammarToSections (dict : List String) (ms : MedicineSection) : MedicineSection :=
  { sections := ms.sections.map
      (fun s => { s with paragraphText := enhanceGrammar dict s.paragraphText }),
    url := ms.url }

/-- scrapeDetailedSections: for each resolved link, in source order, fetch
and extract that section (heading walk for the six ordinary categories, the
disclosure-widget walk for common questions), enhance every paragraph body,
and overwrite the corresponding field of the item; absent links leave the
field untouched. -/
def scrapeDetailedSections (dict : List String) (links : SectionLinks)
    (fsec : String → Except Unit (List Section))
    (fqa : String → Except Unit (List DetailsEl))
    (m0 : MedicineInfo) : MedicineInfo :=
  let m1 := match links.about with
    | some u => { m0 with about := applyGrammarToSections dict (extractSectionContent u (fsec u)) }
    | none => m0
  let m2 := match links.whoCanTake with
    | some u => { m1 with eligibility := applyGrammarToSections dict (extractSectionContent u (fsec u)) }
    | none => m1
  let m3 := match links.howAndWhenToTake with
    | some u => { m2 with howAndWhenToTake := applyGrammarToSections dict (extractSectionContent u (fsec u)) }
    | none => m2
  let m4 := match links.sideEffects with
    | some u => { m3 with sideEffects := applyGrammarToSections dict (extractSectionContent u (fsec u)) }
    | none => m3
  let m5 := match links.pregnancy with
    | some u => { m4 with pregnancyBreastFeedingFertility := applyGrammarToSections dict (extractSectionContent u (fsec u)) }
    | none => m4
  let m6 := match links.interactions with
    | some u => { m5 with takingWithOther := applyGrammarToSections dict (extractSectionContent u (fsec u)) }
    | none => m5
  match links.commonQuestions with
  | some u => { m6 with commonQuestions := applyGrammarToSections dict (extractCommonQuestions u (fqa u)) }
  | none => m6

/-! ## Stage A basics (src/scraper.ts, scrapeMedicineDetails, lines 196 to 348) -/

/-- The fallback display name when the heading text cleans to a falsy
value. -/
def unknownMedicine : String := "Unknown Medicine"

/-- The spaced hyphen separator of the brand-suffix split. -/
def dashSep1 : String := " - "

/-- The spaced en dash separator of the brand-suffix split. -/
def dashSep2 : String := " – "

/-- The prefix of the cleaned heading before the first spaced hyphen or
spaced en dash, the head of the JS split. -/
def splitFirstSep : List Char → List Char
  | [] => []
  | c :: cs =>
    if startsWithL dashSep1.data (c :: cs) || startsWithL dashSep2.data (c :: cs) then []
    else c :: splitFirstSep cs

/-- The display name of a detail page: the cleaned primary-heading text
(falling back to the unknown label when falsy); when it contains a spaced
hyphen or spaced en dash, the part before the first separator, trimmed. -/
def extractDisplayName (heading : Option String) : String :=
  let name0 := match cleanTextOpt heading with
    | some s => if s = "" then unknownMedicine else s
    | none => unknownMedicine
  if containsL dashSep1.data name0.data || containsL dashSep2.data name0.data then
    String.mk (trimL (splitFirstSep name0.data))
  else name0

/-- The basic fields extracted by the Stage A page evaluation. -/
structure BasicInfo where
  name : String
  otherBrandNames : Option String := none
  dateCaptured : String := ""
  summary : String := ""
  relatedConditions : List String := []
deriving DecidableEq, Repr

/-- The item shell assembled after Stage A and Stage B (lines 316 to 330):
basic fields copied, the summary passed through enhanceGrammar (the summary
is already a string, possibly empty, so the or-empty guard of the source is
the identity), and all seven section slots initialized empty with their
resolved URLs. -/
def buildMedicine (dict : List String) (linkUrl : String) (info : BasicInfo)
    (sectionLinks : SectionLinks) : MedicineInfo :=
  { name := info.name,
    url := linkUrl,
    dateCaptured := some info.dateCaptured,
    otherBrandNames := info.otherBrandNames,
    summary := some (enhanceGrammar dict info.summary),
    about := { sections := [], url := sectionLinks.about },
    eligibility := { sections := [], url := sectionLinks.whoCanTake },
    howAndWhenToTake := { sections := [], url := sectionLinks.howAndWhenToTake },
    sideEffects := { sections := [], url := sectionLinks.sideEffects },
    pregnancyBreastFeedingFertility := { sections := [], url := sectionLinks.pregnancy },
    takingWithOther := { sections := [], url := sectionLinks.interactions },
    commonQuestions := { sections := [], url := sectionLinks.commonQuestions },
    relatedConditions := info.relatedConditions }

/-! ## Predicates and concrete fixtures used by the theorems -/

/-- Does the list contain two adjacent whitespace characters? -/
def hasDoubleWS : List Char → Bool
  | c1 :: c2 :: rest => (isWSCh c1 && isWSCh c2) || hasDoubleWS (c2 :: rest)
  | _ => false

/-- A concrete URL resolution, modelling the browser URL constructor on the
index page: an absolute href is kept, a relative path is resolved against
the site origin. -/
def resolveRel (h : String) : Resolved :=
  if startsWithL httpPre.data h.data then { href := h, pathname := h }
  else { href := nhsBase ++ h, pathname := h }

/-- Scheduler scenario: five acquisition attempts by tasks 1 to 5. -/
def fiveAcqs : List SemEvent :=
  [SemEvent.acq 1, SemEvent.acq 2, SemEvent.acq 3, SemEvent.acq 4, SemEvent.acq 5]

/-- Catalog url of the first end-to-end item. -/
def c2url1 : String := "https://www.nhs.uk/medicines/aspirin/"

/-- Catalog url of the second end-to-end item. -/
def c2url2 : String := "https://www.nhs.uk/medicines/bisoprolol/"

/-- Catalog url of the third end-to-end item. -/
def c2url3 : String := "https://www.nhs.uk/medicines/codeine/"

/-- Name of the third end-to-end item, the one whose Stage A fetch
raises. -/
def c2name3 : String := "Codeine"

/-- Item record returned for the first end-to-end item. -/
def c2med1 : MedicineInfo := { name := "Aspirin", url := c2url1 }

/-- Item record returned for the second end-to-end item. -/
def c2med2 : MedicineInfo := { name := "Bisoprolol", url := c2url2 }

/-- The three-link catalog of the end-to-end scenario. -/
def c2catalog : List MedLink :=
  [{ name := "Aspirin", url := c2url1 },
   { name := "Bisoprolol", url := c2url2 },
   { name := c2name3, url := c2url3 }]

/-- The end-to-end outcomes: items 1 and 2 succeed, item 3 fails Stage A
(scrapeMedicineDetails returns null). -/
def c2outcome : MedLink → Option MedicineInfo := fun l =>
  if l.name = c2name3 then none
  else if l.url = c2url1 then some c2med1
  else some c2med2

/-- Section url of the failing side-effects fetch of the isolation
scenario. -/
def c3seUrl : String := "https://www.nhs.uk/medicines/aspirin/side-effects-of-aspirin/"

/-- Section url of the succeeding about fetch of the isolation scenario. -/
def c3aboutUrl : String := "https://www.nhs.uk/medicines/aspirin/about-aspirin/"

/-- The one paragraph the about fetch extracts in the isolation scenario. -/
def c3sec : Section :=
  { paragraphTitle := "Key facts", paragraphText := "Aspirin is a common painkiller." }

/-- Section links of the isolation scenario: about and side effects. -/
def c3links : SectionLinks := { about := some c3aboutUrl, sideEffects := some c3seUrl }

/-- Section fetches of the isolation scenario: about succeeds, everything
else (in particular side effects) raises. -/
def c3fsec : String → Except Unit (List Section) := fun u =>
  if u = c3aboutUrl then Except.ok [c3sec] else Except.error ()

/-- Common-questions fetch of the isolation scenario (unused link). -/
def c3fqa : String → Except Unit (List DetailsEl) := fun _ => Except.error ()

/-- Item shell of the isolation scenario. -/
def c3m0 : MedicineInfo := { name := "Aspirin", url := c2url1 }

/-- A correctly spaced input of the reconstruction pipeline. -/
def c4input : String := "scar tissue"

/-- What the pipeline makes of it: the dictionary split fires inside the
word tissue, whose tail issue is a dictionary entry. -/
def c4output : String := "scar t issue"

/-- Relative href of the first classifier anchor. -/
def c5href1 : String := "/medicines/x/about/"

/-- Text of the first classifier anchor. -/
def c5text1 : String := "About amoxicillin"

/-- Relative href of the second classifier anchor. -/
def c5href2 : String := "/medicines/x/other/"

/-- Text of the second classifier anchor. -/
def c5text2 : String := "More about storage"

/-- First classifier anchor: matches the about group. -/
def c5a1 : PageAnchor := { href := some c5href1, text := some c5text1 }

/-- Second classifier anchor: also matches the about group. -/
def c5a2 : PageAnchor := { href := some c5href2, text := some c5text2 }

/-- Resolved URL of the first classifier anchor. -/
def c5url1 : String := "https://www.nhs.uk/medicines/x/about/"

/-- Resolved URL of the second classifier anchor. -/
def c5url2 : String := "https://www.nhs.uk/medicines/x/other/"

/-- Canonical URL of the duplicated catalog anchor pair. -/
def c6url : String := "https://www.nhs.uk/medicines/aspirin/"

/-- Relative href of the duplicated catalog anchor pair. -/
def c6href : String := "/medicines/aspirin/"

/-- The accepted name of the duplicated catalog anchor pair. -/
def c6name : String := "Aspirin"

/-- The catalog anchor with empty text. -/
def c6empty : MedAnchor := { href := some c6href, text := some emptyStr }

/-- The catalog anchor with the name text. -/
def c6named : MedAnchor := { href := some c6href, text := some c6name }

/-- The single catalog entry both orders must produce. -/
def c6entry : LinkEntry := { name := some c6name, url := c6url }

/-- The disclosure-widget prompt of the Q and A scenario. -/
def c7prompt : String := "Can I take it with ibuprofen?"

/-- The disclosure-widget payload of the Q and A scenario. -/
def c7payload : String := "Yes, this is usually safe."

/-- The common-questions page url of the Q and A scenario. -/
def c7url : String := "https://www.nhs.uk/medicines/aspirin/common-questions-about-aspirin/"

/-- Section links of the Q and A scenario: only common questions. -/
def c7links : SectionLinks := { commonQuestions := some c7url }

/-- Ordinary-section fetch of the Q and A scenario (no link uses it). -/
def c7fsec : String → Except Unit (List Section) := fun _ => Except.error ()

/-- The common-questions fetch: one disclosure widget. -/
def c7fqa : String → Except Unit (List DetailsEl) := fun _ =>
  Except.ok [{ summaryText := some c7prompt, answerText := some c7payload }]

/-- Item shell of the Q and A scenario. -/
def c7m0 : MedicineInfo := { name := "Aspirin", url := c2url1 }

/-- Elapsed clock of the progress scenario. -/
def c8el : Nat → ℚ := fun _ => 1000

/-- Outcomes of the progress scenario: the very first event. -/
def c8outcomes : List Bool := [true]

/-- A heading with a spaced hyphen brand suffix. -/
def c9hyphen : String := "Aspirin - Daily"

/-- A heading with a spaced en dash brand suffix. -/
def c9endash : String := "Aspirin – Daily"

/-- A heading with a spaced em dash brand suffix. -/
def c9emdash : String := "Aspirin — Daily"

/-- The name the claim expects for all three headings. -/
def c9name : String := "Aspirin"

/-- The name the code produces for the en and em dash headings: the dash is
normalized to a space before the separator check, so the suffix stays. -/
def c9merged : String := "Aspirin Daily"

/-- Link url of the summary scenario. -/
def c10url : String := c2url1

/-- Basic fields of the summary scenario: the raw extracted summary is a
correctly spaced sentence. -/
def c10info : BasicInfo := { name := "Aspirin", summary := "its effects are mild." }

/-- The raw extracted summary. -/
def c10raw : String := "its effects are mild."

/-- The stored summary: the grammar pass rewrote the its contraction. -/
def c10expected : String := "it\x27s effects are mild."

/-- Section links of the summary scenario. -/
def c10links : SectionLinks := { about := some c3aboutUrl }

/-! ## Theorems -/

/-- One scheduler step preserves the FIFO accounting: the woken ids
followed by the current queue are exactly the enqueued ids in order. -/
theorem semStep_fifo (acc : SemTrace) (e : SemEvent)
    (h : acc.woken ++ acc.st.waitQueue = acc.enqueued) :
    (semStep acc e).woken ++ (semStep acc e).st.waitQueue = (semStep acc e).enqueued := by
  cases e with
  | acq tid =>
    simp only [semStep, semAcquire]
    by_cases hp : 0 < acc.st.permits
    · simp [hp, h]
    · simp [hp, ← List.append_assoc, h]
  | rel =>
    simp only [semStep, semRelease]
    cases hq : acc.st.waitQueue with
    | nil => simpa [hq] using h
    | cons x t =>
      rw [hq] at h
      simp [hq, ← h, List.append_assoc]

/-- The FIFO accounting holds along any fold of scheduler events. -/
theorem semFold_fifo (evs : List SemEvent) :
    ∀ acc : SemTrace, acc.woken ++ acc.st.waitQueue = acc.enqueued →
      (evs.foldl semStep acc).woken ++ (evs.foldl semStep acc).st.waitQueue =
        (evs.foldl semStep acc).enqueued := by
  induction evs with
  | nil => intro acc h; simpa using h
  | cons e rest ih =>
    intro acc h
    simpa using ih (semStep acc e) (semStep_fifo acc e h)

/-- Claim C1: for the concurrency gate, an acquire with permits remaining
decrements the counter and returns immediately; with no permits it enqueues
the caller at the back; a release wakes at most the single earliest waiter
(the queue head) and hands it the freed permit atomically; over any event
sequence the order of woken waiters is exactly the enqueue order (strict
FIFO); and with capacity 2 and 5 pending acquisitions exactly tasks 1 and 2
proceed immediately, and one release wakes exactly task 3. -/
theorem thmC1_semaphore_fifo :
    (∀ s tid, 0 < s.permits →
      semAcquire s tid = ({ permits := s.permits - 1, waitQueue := s.waitQueue }, true)) ∧
    (∀ s tid, s.permits = 0 →
      semAcquire s tid = ({ permits := 0, waitQueue := s.waitQueue ++ [tid] }, false)) ∧
    (∀ s x t, s.waitQueue = x :: t →
      semRelease s = ({ permits := s.permits, waitQueue := t }, some x)) ∧
    (∀ s, s.waitQueue = [] →
      semRelease s = ({ permits := s.permits + 1, waitQueue := [] }, none)) ∧
    (∀ k evs, (semRun k evs).woken ++ (semRun k evs).st.waitQueue = (semRun k evs).enqueued) ∧
    ((semRun 2 fiveAcqs).immediate = [1, 2] ∧
      (semRun 2 fiveAcqs).st.waitQueue = [3, 4, 5] ∧
      (semRun 2 (fiveAcqs ++ [SemEvent.rel])).woken = [3] ∧
      (semRun 2 (fiveAcqs ++ [SemEvent.rel])).st.waitQueue = [4, 5]) := by
  refine ⟨?_, ?_, ?_, ?_, ?_, ?_⟩
  · intro s tid hp; simp [semAcquire, hp]
  · intro s tid hp; simp [semAcquire, hp]
  · intro s x t hq; simp [semRelease, hq]
  · intro s hq; simp [semRelease, hq]
  · intro k evs; exact semFold_fifo evs _ rfl
  · refine ⟨by decide, by decide, by decide, by decide⟩

/-- Witness for C1 at concrete states: two permits admit immediately, a
full gate enqueues at the back, a release wakes the earliest waiter. -/
theorem thmC1_semaphore_fifo_witness :
    semAcquire { permits := 2, waitQueue := [] } 1 =
      ({ permits := 1, waitQueue := [] }, true) ∧
    semAcquire { permits := 0, waitQueue := [3] } 4 =
      ({ permits := 0, waitQueue := [3, 4] }, false) ∧
    semRelease { permits := 0, waitQueue := [3, 4, 5] } =
      ({ permits := 0, waitQueue := [4, 5] }, some 3) :=
  ⟨thmC1_semaphore_fifo.1 _ 1 (by decide),
   thmC1_semaphore_fifo.2.1 _ 4 rfl,
   thmC1_semaphore_fifo.2.2.1 _ 3 [4, 5] rfl⟩

/-- Every step of the scraping fold grows exactly one of the two lists. -/
theorem scrapeFold_count (outcome : MedLink → Option MedicineInfo) :
    ∀ (links : List MedLink) (acc : List MedicineInfo × List String),
      (links.foldl (scrapeStep outcome) acc).1.length +
        (links.foldl (scrapeStep outcome) acc).2.length =
        acc.1.length + acc.2.length + links.length := by
  intro links
  induction links with
  | nil => intro acc; simp
  | cons l rest ih =>
    intro acc
    rw [List.foldl_cons, ih]
    cases h : outcome l <;> simp [scrapeStep, h] <;> omega

/-- Claim C2: every attempted item lands in exactly one of the success list
and the failure list, so succeeded plus the number of failure names equals
the number of attempted items (the catalog truncated by a positive
processing cap), while totalFound is the full catalog size; concretely,
with 3 links where items 1 and 2 succeed and item 3 fails Stage A, the run
result has totalFound 3, succeeded 2, the failure list holding exactly the
third name, and 2 item records. -/
theorem thmC2_run_accounting :
    (∀ catalog limit outcome stamp,
      (runScrape catalog limit outcome stamp).scrapedMedicines +
        (runScrape catalog limit outcome stamp).failedMedicines.length =
        (if 0 < limit then catalog.take limit else catalog).length ∧
      (runScrape catalog limit outcome stamp).totalMedicines = catalog.length) ∧
    (∀ stamp,
      (runScrape c2catalog 0 c2outcome stamp).totalMedicines = 3 ∧
      (runScrape c2catalog 0 c2outcome stamp).scrapedMedicines = 2 ∧
      (runScrape c2catalog 0 c2outcome stamp).failedMedicines = [c2name3] ∧
      (runScrape c2catalog 0 c2outcome stamp).medicines = [c2med1, c2med2]) := by
  constructor
  · intro catalog limit outcome stamp
    constructor
    · simpa [runScrape] using scrapeFold_count outcome
        (if 0 < limit then catalog.take limit else catalog) ([], [])
    · rfl
  · intro stamp
    exact ⟨rfl, rfl, rfl, rfl⟩

/-- The side-effects slot of the detailed pass depends only on its own link
and fetch. -/
theorem sds_sideEffects_char (dict : List String) (links : SectionLinks)
    (fsec : String → Except Unit (List Section))
    (fqa : String → Except Unit (List DetailsEl)) (m0 : MedicineInfo) :
    (scrapeDetailedSections dict links fsec fqa m0).sideEffects =
      (match links.sideEffects with
       | some u => applyGrammarToSections dict (extractSectionContent u (fsec u))
       | none => m0.sideEffects) := by
  unfold scrapeDetailedSections
  rcases links with ⟨a, w, hw, se, pr, ir, cq⟩
  cases a <;> cases w <;> cases hw <;> cases se <;> cases pr <;> cases ir <;> cases cq <;> rfl

/-- The about slot of the detailed pass depends only on its own link and
fetch. -/
theorem sds_about_char (dict : List String) (links : SectionLinks)
    (fsec : String → Except Unit (List Section))
    (fqa : String → Except Unit (List DetailsEl)) (m0 : MedicineInfo) :
    (scrapeDetailedSections dict links fsec fqa m0).about =
      (match links.about with
       | some u => applyGrammarToSections dict (extractSectionContent u (fsec u))
       | none => m0.about) := by
  unfold scrapeDetailedSections
  rcases links with ⟨a, w, hw, se, pr, ir, cq⟩
  cases a <;> cases w <;> cases hw <;> cases se <;> cases pr <;> cases ir <;> cases cq <;> rfl

/-- The common-questions slot of the detailed pass depends only on its own
link and fetch. -/
theorem sds_commonQuestions_char (dict : List String) (links : SectionLinks)
    (fsec : String → Except Unit (List Section))
    (fqa : String → Except Unit (List DetailsEl)) (m0 : MedicineInfo) :
    (scrapeDetailedSections dict links fsec fqa m0).commonQuestions =
      (match links.commonQuestions with
       | some u => applyGrammarToSections dict (extractCommonQuestions u (fqa u))
       | none => m0.commonQuestions) := by
  unfold scrapeDetailedSections
  rcases links with ⟨a, w, hw, se, pr, ir, cq⟩
  cases a <;> cases w <;> cases hw <;> cases se <;> cases pr <;> cases ir <;> cases cq <;> rfl

/-- Claim C3: a failing section fetch degrades only that section, which
keeps an empty paragraph list and its source URL; a failing Stage B fetch
yields the empty section-link map; and an item with a failing side-effects
fetch still carries the normally extracted value in every other slot (shown
for the about slot). -/
theorem thmC3_failure_isolation :
    (∀ url e, extractSectionContent url (Except.error e) =
      { sections := [], url := some url }) ∧
    (∀ url e, extractCommonQuestions url (Except.error e) =
      { sections := [], url := some url }) ∧
    (∀ e, getSectionLinksTotal (Except.error e) = emptySectionLinks) ∧
    (∀ dict links fsec fqa m0 u, links.sideEffects = some u →
      fsec u = Except.error () →
      (scrapeDetailedSections dict links fsec fqa m0).sideEffects =
        { sections := [], url := some u } ∧
      (∀ u2, links.about = some u2 →
        (scrapeDetailedSections dict links fsec fqa m0).about =
          applyGrammarToSections dict (extractSectionContent u2 (fsec u2)))) := by
  refine ⟨fun url e => rfl, fun url e => rfl, fun e => rfl, ?_⟩
  intro dict links fsec fqa m0 u hse hfetch
  constructor
  · simp only [sds_sideEffects_char, hse, hfetch]
    rfl
  · intro u2 hab
    simp only [sds_about_char, hab]

/-- Witness for C3: in the concrete isolation scenario the side-effects
fetch raises, the stored side-effects slot is empty with its URL, and the
about slot holds its own normally extracted value. -/
theorem thmC3_failure_isolation_witness :
    (scrapeDetailedSections fallbackWordList c3links c3fsec c3fqa c3m0).sideEffects =
      { sections := [], url := some c3seUrl } ∧
    (scrapeDetailedSections fallbackWordList c3links c3fsec c3fqa c3m0).about =
      applyGrammarToSections fallbackWordList
        (extractSectionContent c3aboutUrl (c3fsec c3aboutUrl)) := by
  have h := thmC3_failure_isolation.2.2.2 fallbackWordList c3links c3fsec c3fqa c3m0
    c3seUrl rfl rfl
  exact ⟨h.1, h.2 c3aboutUrl rfl⟩

/-- The collapse keeps a leading non-whitespace character in place. -/
theorem collapseWSL_cons_head (c : Char) (cs : List Char) (h : isWSCh c = false) :
    ∃ t, collapseWSL (c :: cs) = c :: t := by
  cases cs with
  | nil => exact ⟨[], by simp [collapseWSL, h]⟩
  | cons c2 rest => exact ⟨collapseWSL (c2 :: rest), by simp [collapseWSL, h]⟩

/-- A list with no adjacent whitespace pair keeps the property when its
head is removed. -/
theorem hasDoubleWS_tail (c : Char) (cs : List Char)
    (h : hasDoubleWS (c :: cs) = false) : hasDoubleWS cs = false := by
  cases cs with
  | nil => rfl
  | cons c2 rest =>
    have := h
    simp only [hasDoubleWS, Bool.or_eq_false_iff] at this
    exact this.2

/-- The whitespace collapse never leaves two adjacent whitespace
characters. -/
theorem hasDoubleWS_collapseWSL (l : List Char) :
    hasDoubleWS (collapseWSL l) = false := by
  induction l with
  | nil => rfl
  | cons c cs ih =>
    cases cs with
    | nil =>
      simp only [collapseWSL]
      rfl
    | cons c2 rest =>
      by_cases h1 : isWSCh c = true
      · by_cases h2 : isWSCh c2 = true
        · simpa [collapseWSL, h1, h2] using ih
        · have h2f : isWSCh c2 = false := by simpa using h2
          obtain ⟨t, ht⟩ := collapseWSL_cons_head c2 rest h2f
          have hres : collapseWSL (c :: c2 :: rest) = ' ' :: collapseWSL (c2 :: rest) := by
            simp [collapseWSL, h1, h2f]
          rw [hres, ht]
          simp only [hasDoubleWS, Bool.or_eq_false_iff]
          refine ⟨by simp [h2f], ?_⟩
          rw [← ht]
          exact ih
      · have h1f : isWSCh c = false := by simpa using h1
        have hres : collapseWSL (c :: c2 :: rest) = c :: collapseWSL (c2 :: rest) := by
          simp [collapseWSL, h1f]
        rw [hres]
        cases hcoll : collapseWSL (c2 :: rest) with
        | nil => rfl
        | cons d t =>
          simp only [hasDoubleWS, Bool.or_eq_false_iff]
          refine ⟨by simp [h1f], ?_⟩
          rw [← hcoll]
          exact ih

/-- Dropping a whitespace-satisfying run from the front preserves the
absence of adjacent whitespace pairs. -/
theorem hasDoubleWS_trimStartL (l : List Char) (h : hasDoubleWS l = false) :
    hasDoubleWS (trimStartL l) = false := by
  induction l with
  | nil => rfl
  | cons c cs ih =>
    by_cases hc : isWSCh c = true
    · have : trimStartL (c :: cs) = trimStartL cs := by
        simp [trimStartL, List.dropWhile, hc]
      rw [this]
      exact ih (hasDoubleWS_tail c cs h)
    · have hcf : isWSCh c = false := by simpa using hc
      have : trimStartL (c :: cs) = c :: cs := by
        simp [trimStartL, List.dropWhile, hcf]
      rw [this]
      exact h

/-- The trailing trim keeps a nonempty result headed by the original
head. -/
theorem trimEndL_cons_head (c d : Char) (cs t : List Char)
    (h : trimEndL (c :: cs) = d :: t) : d = c := by
  simp only [trimEndL] at h
  cases htr : trimEndL cs with
  | nil =>
    rw [htr] at h
    by_cases hc : isWSCh c = true
    · simp [hc] at h
    · have hcf : isWSCh c = false := by simpa using hc
      simp [hcf] at h
      exact h.1.symm
  | cons x xs =>
    rw [htr] at h
    exact (List.cons.injEq _ _ _ _ ▸ h).1.symm

/-- Dropping trailing whitespace preserves the absence of adjacent
whitespace pairs. -/
theorem hasDoubleWS_trimEndL (l : List Char) (h : hasDoubleWS l = false) :
    hasDoubleWS (trimEndL l) = false := by
  induction l with
  | nil => rfl
  | cons c cs ih =>
    have hcs : hasDoubleWS cs = false := hasDoubleWS_tail c cs h
    simp only [trimEndL]
    cases htr : trimEndL cs with
    | nil =>
      by_cases hc : isWSCh c = true
      · simp [hc]
        rfl
      · have hcf : isWSCh c = false := by simpa using hc
        simp [hcf]
        rfl
    | cons d t =>
      have hd : hasDoubleWS (d :: t) = false := htr ▸ ih hcs
      simp only [hasDoubleWS, Bool.or_eq_false_iff]
      refine ⟨?_, hd⟩
      cases cs with
      | nil => simp [trimEndL] at htr
      | cons x xs =>
        have hdx : d = x := trimEndL_cons_head x d xs t htr
        subst hdx
        simp only [hasDoubleWS, Bool.or_eq_false_iff] at h
        simpa using h.1

/-- Trimming preserves the absence of adjacent whitespace pairs. -/
theorem hasDoubleWS_trimL (l : List Char) (h : hasDoubleWS l = false) :
    hasDoubleWS (trimL l) = false :=
  hasDoubleWS_trimEndL _ (hasDoubleWS_trimStartL _ h)

/-- Counterexample to C4: the sentence scar tissue is already correctly
spaced, yet the reconstruction chain with its grammar post-pass splits the
word tissue, whose tail issue is a fallback dictionary entry. -/
theorem thmC4_counterexample :
    enhanceGrammar fallbackWordList c4input = c4output ∧ c4output ≠ c4input := by
  constructor
  · rfl
  · decide

/-- Claim C4 amended: the pipeline is not the identity on every correctly
spaced sentence (the dictionary split can fire inside one word and the
grammar pass rewrites correct text), but the no-extra-space half of the
claim holds: every space-insertion rule fires only between two non-space
characters and the final collapse and trim leave no two adjacent
whitespace characters, so no additional space appears where a space
already exists. -/
theorem thmC4_amended (dict : List String) (s : String) :
    hasDoubleWS (smartCleanText dict s).data = false ∧
    hasDoubleWS (enhanceGrammar dict s).data = false := by
  constructor
  · unfold smartCleanText
    by_cases hs : s = ""
    · simp only [hs, if_pos rfl]
      rfl
    · simp only [if_neg hs]
      exact hasDoubleWS_trimL _ (hasDoubleWS_collapseWSL _)
  · unfold enhanceGrammar
    by_cases hs : s = ""
    · simp only [hs, if_pos rfl]
      rfl
    · simp only [if_neg hs]
      exact hasDoubleWS_trimL _ (hasDoubleWS_collapseWSL _)

/-- Counterexample to C5: two anchors in document order both match the
about keyword group; the built map holds the URL of the second (the source
assigns unconditionally, so a later match overwrites), while the claim
requires the first anchor to win; the single-anchor run shows the first
anchor alone does resolve the category. -/
theorem thmC5_counterexample :
    (getSectionLinksOk [c5a1, c5a2]).about = some c5url2 ∧
    c5url2 ≠ c5url1 ∧
    (getSectionLinksOk [c5a1]).about = some c5url1 := by
  refine ⟨by decide, by decide, by decide⟩

/-- Claim C5 amended: classification is by case-insensitive substring
match against the seven fixed keyword groups, each anchor is assigned to at
most the first category of the fixed chain that its text matches, but for
each category the last matching anchor in document order determines its
URL: a later match overwrites an already-resolved category. -/
theorem thmC5_amended :
    (∀ m a h t, a.href = some h → a.text = some t → h ≠ "" →
      String.mk (trimL (toLowerL t.data)) ≠ "" →
      containsL kwAbout.data (trimL (toLowerL t.data)) = true →
      (classifyStep m a).about =
        some (if startsWithL httpPre.data h.data then h else nhsBase ++ h)) ∧
    (getSectionLinksOk [c5a1, c5a2]).about = some c5url2 := by
  constructor
  · intro m a h t hh ht hne htl hcontains
    unfold classifyStep
    rw [hh, ht]
    simp only [hne, htl, hcontains, decide_eq_true_eq, if_neg, decide_eq_false_iff_not,
      not_false_eq_true]
    have hguard : (decide (h = "") || decide (String.mk (trimL (toLowerL t.data)) = "")) = false := by
      simp [hne, htl]
    rw [if_neg (by simp [hne, htl])]
    simp [hcontains]
  · decide

/-- Witness for C5 at a concrete state: the about category is already
resolved to the first URL, yet classifying the second matching anchor
replaces it. -/
theorem thmC5_amended_witness :
    (classifyStep { about := some c5url1 } c5a2).about = some c5url2 := by
  have h := thmC5_amended.1 { about := some c5url1 } c5a2 c5href2 c5text2
    rfl rfl (by decide) (by decide) (by decide)
  rw [h]
  decide

/-- An upsert under a different key does not change a lookup. -/
theorem lookupEntry_upsert_ne (u1 u2 : String) (e2 : LinkEntry) (hne : u1 ≠ u2) :
    ∀ m : List (String × LinkEntry),
      lookupEntry (upsertEntry m u2 e2) u1 = lookupEntry m u1 := by
  intro m
  induction m with
  | nil => simp [upsertEntry, lookupEntry, Ne.symm hne]
  | cons kv rest ih =>
    by_cases hk : kv.1 = u2
    · have hk1 : ¬kv.1 = u1 := by rw [hk]; exact Ne.symm hne
      simp [upsertEntry, lookupEntry, hk, hk1, Ne.symm hne]
    · by_cases hk1 : kv.1 = u1
      · simp [upsertEntry, lookupEntry, hk, hk1, hne]
      · simp [upsertEntry, lookupEntry, hk, hk1, ih]

/-- One catalog step never replaces an entry that already carries a
nonempty name. -/
theorem medStep_keeps_named (resolve : String → Resolved)
    (m : List (String × LinkEntry)) (a : MedAnchor) (url : String)
    (e : LinkEntry) (n : String) (hl : lookupEntry m url = some e)
    (hn : e.name = some n) (hne : n ≠ emptyStr) :
    lookupEntry (medStep resolve m a) url = some e := by
  cases ha : a.href with
  | none => simpa [medStep, ha] using hl
  | some h =>
    simp only [medStep, ha]
    split
    · next hcond =>
      by_cases hurl : (resolve h).href = url
      · rw [hurl, hl] at hcond
        have hfalsy : entryNameFalsy e = false := by
          simp only [entryNameFalsy, hn]
          simpa [emptyStr] using hne
        simp [hfalsy] at hcond
      · rw [lookupEntry_upsert_ne url ((resolve h).href) _ (fun hEq => hurl hEq.symm) m]
        exact hl
    · exact hl

/-- Claim C6: catalog deduplication is keyed by canonical URL and keeps the
first accepted nonempty name (a later anchor never replaces it; the source
also carries a backfill branch for a falsy stored name, which an accepted
entry never has); the anchor pair sharing one canonical URL where one text
is empty and the other is Aspirin yields, in either order, exactly one
entry named Aspirin, the empty-text anchor being rejected by the length
filter. -/
theorem thmC6_dedup_first_name :
    (∀ resolve m a url e n, lookupEntry m url = some e → e.name = some n →
      n ≠ emptyStr → lookupEntry (medStep resolve m a) url = some e) ∧
    (getMedicineLinks resolveRel [c6empty, c6named] = [c6entry] ∧
     getMedicineLinks resolveRel [c6named, c6empty] = [c6entry]) := by
  exact ⟨medStep_keeps_named, by decide, by decide⟩

/-- Witness for C6: a stored Aspirin entry survives a further anchor to the
same URL. -/
theorem thmC6_dedup_first_name_witness :
    lookupEntry (medStep resolveRel [(c6url, c6entry)] c6empty) c6url = some c6entry := by
  exact thmC6_dedup_first_name.1 resolveRel [(c6url, c6entry)] c6empty c6url c6entry
    c6name rfl rfl (by decide)

/-- Claim C7: every stored paragraph of a section is positionally the raw
extracted paragraph with the body replaced by its pass through the
reconstruction and grammar chain, the title being stored verbatim; the
common-questions slot is the enhanced Q and A extraction of its own link;
in the concrete scenario the stored pair is exactly the prompt and payload,
the chain changing nothing on them. -/
theorem thmC7_body_pipeline :
    (∀ (dict : List String) (ms : MedicineSection) (i : Nat),
      (applyGrammarToSections dict ms).sections[i]? =
      (ms.sections[i]?).map (fun (s : Section) =>
        ({ paragraphTitle := s.paragraphTitle,
           paragraphText := enhanceGrammar dict s.paragraphText } : Section))) ∧
    (∀ dict links fsec fqa m0 u, links.commonQuestions = some u →
      (scrapeDetailedSections dict links fsec fqa m0).commonQuestions =
        applyGrammarToSections dict (extractCommonQuestions u (fqa u))) ∧
    ((scrapeDetailedSections fallbackWordList c7links c7fsec c7fqa c7m0).commonQuestions =
      { sections := [{ paragraphTitle := c7prompt, paragraphText := c7payload }],
        url := some c7url }) := by
  refine ⟨?_, ?_, ?_⟩
  · intro dict ms i
    simp [applyGrammarToSections, List.getElem?_map]
  · intro dict links fsec fqa m0 u hcq
    rw [sds_commonQuestions_char, hcq]
  · rfl

/-- Witness for C7: the concrete Q and A scenario instantiates the
common-questions characterization. -/
theorem thmC7_body_pipeline_witness :
    (scrapeDetailedSections fallbackWordList c7links c7fsec c7fqa c7m0).commonQuestions =
      applyGrammarToSections fallbackWordList
        (extractCommonQuestions c7url (c7fqa c7url)) :=
  thmC7_body_pipeline.2.1 fallbackWordList c7links c7fsec c7fqa c7m0 c7url rfl

/-- Shape of the progress event stream from any starting counter: the
event at position i carries the counter already incremented to the start
value plus i plus one, and for a success its ETA is the remaining count
times the average elapsed time per item, whose divisor is that same
incremented counter. -/
theorem progressEventsFrom_spec (total : Nat) (el : Nat → ℚ) :
    ∀ (os : List Bool) (j i : Nat)
      (hi : i < (progressEventsFrom total el j os).length),
      ((progressEventsFrom total el j os).get ⟨i, hi⟩).processed = j + i + 1 ∧
      (os[i]? = some true →
        ((progressEventsFrom total el j os).get ⟨i, hi⟩).eta =
          some (((total : ℚ) - ((j : ℚ) + (i : ℚ) + 1)) *
            (el (j + i) / ((j : ℚ) + (i : ℚ) + 1)))) ∧
      (os[i]? = some false →
        ((progressEventsFrom total el j os).get ⟨i, hi⟩).eta = none) := by
  intro os
  induction os with
  | nil => intro j i hi; simp [progressEventsFrom] at hi
  | cons b rest ih =>
    intro j i hi
    cases i with
    | zero =>
      cases b with
      | true =>
        refine ⟨by simp [progressEventsFrom], ?_, ?_⟩
        · intro _
          simp [progressEventsFrom]
        · intro hfalse
          simp at hfalse
      | false =>
        refine ⟨by simp [progressEventsFrom], ?_, ?_⟩
        · intro htrue
          simp at htrue
        · intro _
          simp [progressEventsFrom]
    | succ i2 =>
      have hi2 : i2 < (progressEventsFrom total el (j + 1) rest).length := by
        simpa [progressEventsFrom] using hi
      have h := ih (j + 1) i2 hi2
      have hget : (progressEventsFrom total el j (b :: rest)).get ⟨i2 + 1, hi⟩ =
          (progressEventsFrom total el (j + 1) rest).get ⟨i2, hi2⟩ := by
        simp [progressEventsFrom]
      refine ⟨?_, ?_, ?_⟩
      · rw [hget, h.1]
        omega
      · intro htrue
        rw [hget]
        rw [h.2.1 (by simpa using htrue)]
        congr 1
        push_cast
        ring_nf
      · intro hfalse
        rw [hget]
        exact h.2.2 (by simpa using hfalse)

/-- Claim C8: every progress event reads the processed counter after its
increment, so the event at position i carries processed equal to i plus
one, which is positive; a success ETA equals elapsed divided by the
incremented counter times the remaining count (so the first event divides
by one, never by zero), and a failure event prints no ETA. -/
theorem thmC8_eta_divisor (total : Nat) (el : Nat → ℚ) (outcomes : List Bool)
    (i : Nat) (hi : i < (progressEvents total el outcomes).length) :
    ((progressEvents total el outcomes).get ⟨i, hi⟩).processed = i + 1 ∧
    0 < ((progressEvents total el outcomes).get ⟨i, hi⟩).processed ∧
    (outcomes[i]? = some true →
      ((progressEvents total el outcomes).get ⟨i, hi⟩).eta =
        some (el i / ((i : ℚ) + 1) * ((total : ℚ) - ((i : ℚ) + 1)))) ∧
    (outcomes[i]? = some false →
      ((progressEvents total el outcomes).get ⟨i, hi⟩).eta = none) := by
  have h := progressEventsFrom_spec total el outcomes 0 i hi
  unfold progressEvents
  refine ⟨by simpa using h.1, ?_, ?_, by simpa using h.2.2⟩
  · have hp := h.1
    omega
  · intro htrue
    rw [h.2.1 htrue]
    congr 1
    simp only [Nat.zero_add]
    push_cast
    ring

/-- Witness for C8: one successful first event with total 5 and elapsed
1000 carries processed 1 and the finite ETA 4000. -/
theorem thmC8_eta_divisor_witness :
    (progressEvents 5 c8el c8outcomes).length = 1 ∧
    ((progressEvents 5 c8el c8outcomes).get
      ⟨0, by simp [progressEvents, progressEventsFrom, c8outcomes]⟩).processed = 1 := by
  refine ⟨by simp [progressEvents, progressEventsFrom, c8outcomes], ?_⟩
  exact (thmC8_eta_divisor 5 c8el c8outcomes 0
    (by simp [progressEvents, progressEventsFrom, c8outcomes])).1

/-- Counterexample to C9: a heading with a spaced en dash brand suffix is
not truncated at the dash; the cleaning step has already replaced the en
dash by a space, so the stored name keeps the brand with the dash turned
into a space instead of dropping it. -/
theorem thmC9_counterexample :
    extractDisplayName (some c9endash) = c9merged ∧ c9merged ≠ c9name := by
  exact ⟨rfl, by decide⟩

/-- Claim C9 amended: the display name is the cleaned primary-heading text
truncated at the first spaced hyphen-minus only; en dash and em dash are
replaced by spaces during cleaning before the separator check, so a brand
suffix after an en or em dash is retained with the dash turned into a
space (cleaning leaves no dash for the split to find). -/
theorem thmC9_amended :
    extractDisplayName (some c9hyphen) = c9name ∧
    extractDisplayName (some c9endash) = c9merged ∧
    extractDisplayName (some c9emdash) = c9merged ∧
    (∀ l c, c ∈ enDashFix l → c.toNat ≠ 8211) ∧
    (∀ l c, c ∈ emDashFix l → c.toNat ≠ 8212) := by
  refine ⟨rfl, rfl, rfl, ?_, ?_⟩
  · intro l c hc
    rw [enDashFix, List.mem_map] at hc
    obtain ⟨x, _, rfl⟩ := hc
    by_cases hx : x.toNat = 8211 <;> simp [hx]
  · intro l c hc
    rw [emDashFix, List.mem_map] at hc
    obtain ⟨x, _, rfl⟩ := hc
    by_cases hx : x.toNat = 8212 <;> simp [hx]

/-- Witness for C9 amended: the letter A occurs in the en dash fix output
on the en dash heading and is not an en dash. -/
theorem thmC9_amended_witness :
    (Char.ofNat 65).toNat ≠ 8211 ∧ extractDisplayName (some c9hyphen) = c9name :=
  ⟨thmC9_amended.2.2.2.1 c9endash.data (Char.ofNat 65) (by decide), thmC9_amended.1⟩

/-- Claim C10: the stored summary of the assembled item is exactly the
grammar-enhancement chain applied to the extracted summary (even though
the written design applies the pipeline only to paragraph bodies); in the
concrete scenario the chain visibly rewrites the raw summary before
storage. -/
theorem thmC10_summary_enhanced :
    (∀ dict linkUrl info sl,
      (buildMedicine dict linkUrl info sl).summary =
        some (enhanceGrammar dict info.summary)) ∧
    ((buildMedicine fallbackWordList c10url c10info c10links).summary =
      some c10expected ∧ c10expected ≠ c10raw) := by
  refine ⟨fun dict linkUrl info sl => rfl, rfl, by decide⟩

end NHSScraper
